import Mathlib

/-!
Verification development for the UpCube Write client-side
annotation-and-correction engine.

The TypeScript sources are shallowly embedded here: JS strings are modelled
as lists of characters (`Str`), JS numbers used as indices are modelled as
`Int` (with the clamping that the code performs made explicit), fallible
code returns `Option`, and the stateful request scheduler is modelled as a
step function on an explicit state type driven by an event list.
-/

/-- A JS string, modelled as its list of characters. -/
abbrev Str := List Char

/-- Convert a Lean string literal into the character-list model. -/
def S (s : String) : Str := s.data

/-- The JS whitespace class (the characters `\s` matches that are relevant
to this code base: space, tab, newline, carriage return, vertical tab,
form feed, no-break space, BOM). -/
def isJsSpace (c : Char) : Bool :=
  c == ' ' || c == '\t' || c == '\n' || c == '\r' ||
  c.toNat == 11 || c.toNat == 12 || c.toNat == 160 || c.toNat == 65279

/-- Drop the trailing characters satisfying `p` (used for `trim` and for
`replace(/\/+$/, '')`). -/
def dropTrailing (p : Char → Bool) (l : Str) : Str :=
  (l.reverse.dropWhile p).reverse

/-- JS `String.prototype.trim`: strip whitespace from both ends. -/
def jsTrim (l : Str) : Str := dropTrailing isJsSpace (l.dropWhile isJsSpace)

/-- The helper `clamp` from `src/unnamed/part_004`:
`clamp(n, min, max) = Math.max(min, Math.min(max, n))`. -/
def clamp (n lo hi : Int) : Int := max lo (min hi n)

/-- Normalise a JS `slice` index against a length: negative indices count
from the end, and the result is clamped into `[0, len]`. -/
def jsSliceNorm (len : Nat) (i : Int) : Nat :=
  (if i < 0 then max ((len : Int) + i) 0 else min i (len : Int)).toNat

/-- JS `Array.prototype.slice(a, b)` / `String.prototype.slice(a, b)`. -/
def jsSlice (l : List α) (a b : Int) : List α :=
  (l.take (jsSliceNorm l.length b)).drop (jsSliceNorm l.length a)

/-- JS `slice(a)` with the end index omitted. -/
def jsSliceFrom (l : List α) (a : Int) : List α :=
  l.drop (jsSliceNorm l.length a)

/-- JS `s || d` for a string `s`: the empty string is falsy. -/
def jsOrStr (s d : Str) : Str := if s = [] then d else s

/-- JS `o || d` where `o` is a possibly-missing string (`undefined` and the
empty string are both falsy). -/
def jsOrOpt (o : Option Str) (d : Str) : Str :=
  match o with
  | none => d
  | some s => if s = [] then d else s

/-- JS `String.prototype.toLowerCase` restricted to ASCII (the only case
mapping this code base relies on). -/
def jsToLower (l : Str) : Str := l.map Char.toLower

/-- A map carrying the element index, used for JS `array.map((x, i) => …)`. -/
def mapWithIdx (f : Nat → α → β) : Nat → List α → List β
  | _, [] => []
  | i, x :: xs => f i x :: mapWithIdx f (i + 1) xs

/-- Insert into a list sorted by `key`, before the first element with a key
that is not smaller (this realises the stability of JS `Array.sort`). -/
def insertByKey (key : α → Int) (x : α) : List α → List α
  | [] => [x]
  | y :: ys => if key x ≤ key y then x :: y :: ys else y :: insertByKey key x ys

/-- Stable sort by an integer key, modelling
`array.sort((a, b) => a.offset - b.offset)`. -/
def sortByKey (key : α → Int) : List α → List α
  | [] => []
  | x :: xs => insertByKey key x (sortByKey key xs)

/-- The optional `rule` object of a LanguageTool match (union of the fields
the different source files declare). -/
structure LTRule where
  id : Option Str := none
  description : Option Str := none
  issueType : Option Str := none
  categoryName : Option Str := none
deriving DecidableEq

/-- A LanguageTool match (`LTMatch` in `src/App.tsx` and
`src/unnamed/part_004`, `Match` in `src/unnamed/part_006`). `replacements`
keeps only the `value` strings. Offsets and lengths are JS numbers, hence
`Int` here. -/
structure LTMatch where
  message : Str := []
  shortMessage : Option Str := none
  offset : Int
  length : Int
  replacements : List Str := []
  rule : Option LTRule := none
deriving DecidableEq

/-- A renderable segment emitted by the span annotator: a plain chunk, or a
highlighted chunk tagged with the original match index and whether it is the
selected one. -/
inductive Segment
  | plain (text : Str)
  | highlighted (text : Str) (idx : Nat) (selected : Bool)
deriving DecidableEq

/-- The text carried by a segment (the claimed round-trip ignores the HTML
markup wrapped around highlighted chunks). -/
def segText : Segment → Str
  | .plain t => t
  | .highlighted t _ _ => t

/-- In-order concatenation of the texts of a segment list. -/
def segConcat (segs : List Segment) : Str :=
  segs.foldr (fun s acc => segText s ++ acc) []

/-- Texts of the highlighted segments only, in order. -/
def highlightedTexts (segs : List Segment) : List Str :=
  segs.filterMap fun s =>
    match s with
    | .highlighted t _ _ => some t
    | .plain _ => none

/-- The indexing step `matches.map((m, i) => ({ ...m, _i: i }))` of `buildHighlightedHtml`:
pair each match with its original index. -/
def withIdx (matches' : List LTMatch) : List (LTMatch × Nat) :=
  mapWithIdx (fun i m => (m, i)) 0 matches'

/-- The loop of `buildHighlightedHtml` (src/unnamed/part_004, lines 61-81),
emitting segments instead of HTML: walk the sorted spans with a cursor;
clamp `offset` and `offset + length` into `[0, text.length]`; skip a span
whose clamped end is ≤ the cursor (`if (end <= cursor) continue`);
otherwise emit the plain chunk `text.slice(cursor, start)`, the highlighted
chunk `text.slice(start, end)`, and advance the cursor to `end`. The final
tail `text.slice(cursor)` is emitted as a plain segment. -/
def annotateWalk (text : Str) (selectedIdx : Option Nat) :
    Nat → List (LTMatch × Nat) → List Segment
  | cursor, [] => [.plain (jsSliceFrom text (cursor : Int))]
  | cursor, s :: rest =>
    let st := (clamp s.1.offset 0 text.length).toNat
    let en := (clamp (s.1.offset + s.1.length) 0 text.length).toNat
    if en ≤ cursor then annotateWalk text selectedIdx cursor rest
    else
      .plain (jsSlice text (cursor : Int) (st : Int)) ::
      .highlighted (jsSlice text (st : Int) (en : Int)) s.2
        (decide (selectedIdx = some s.2)) ::
      annotateWalk text selectedIdx en rest

/-- The function `buildHighlightedHtml` as a segment stream: index the matches, sort by
ascending offset, and walk from cursor 0. -/
def buildSegments (text : Str) (matches' : List LTMatch)
    (selectedIdx : Option Nat) : List Segment :=
  annotateWalk text selectedIdx 0 (sortByKey (fun s => s.1.offset) (withIdx matches'))

/-- Replace every occurrence of the character `c` by the string `rep`
(JS `replaceAll` with a single-character pattern). -/
def replaceChar (c : Char) (rep : Str) : Str → Str
  | [] => []
  | x :: xs => (if x == c then rep else [x]) ++ replaceChar c rep xs

/-- The function `escapeHtml` from src/unnamed/part_004: the five sequential
`replaceAll` calls. -/
def escapeHtml (s : Str) : Str :=
  replaceChar (Char.ofNat 39) (S "&#039;")
    (replaceChar '"' (S "&quot;")
      (replaceChar '>' (S "&gt;")
        (replaceChar '<' (S "&lt;")
          (replaceChar '&' (S "&amp;") s))))

/-- Render one segment the way `buildHighlightedHtml` appends to `out`:
plain chunks are HTML-escaped, highlighted chunks are wrapped in the
`<span class="hlt-word …" data-idx="…">` markup. -/
def renderSegment : Segment → Str
  | .plain t => escapeHtml t
  | .highlighted t i sel =>
    S "<span class=\"hlt-word " ++ (if sel then S "is-selected" else []) ++
    S "\" data-idx=\"" ++ Nat.toDigits 10 i ++ S "\">" ++ escapeHtml t ++ S "</span>"

/-- The full `buildHighlightedHtml`: the segment stream rendered to HTML, with
the final `replaceAll("\n", "<br/>")`. -/
def buildHighlightedHtml (text : Str) (matches' : List LTMatch)
    (selectedIdx : Option Nat) : Str :=
  replaceChar '\n' (S "<br/>")
    ((buildSegments text matches' selectedIdx).foldr
      (fun s acc => renderSegment s ++ acc) [])

/-- The loop of `renderHighlightedText` (src/unnamed/part_006, lines 96-117):
no clamping and no overlap guard; `lastIndex` starts at 0 and jumps to
`m.offset + m.length` after every match. The `idx` stored on a highlighted
segment is the position in the sorted array (the React `key`). -/
def renderWalk (text : Str) (lastIndex : Int) :
    List (LTMatch × Nat) → List Segment
  | [] => [.plain (jsSliceFrom text lastIndex)]
  | (m, i) :: rest =>
    .plain (jsSlice text lastIndex m.offset) ::
    .highlighted (jsSlice text m.offset (m.offset + m.length)) i false ::
    renderWalk text (m.offset + m.length) rest

/-- The function `renderHighlightedText` of src/unnamed/part_006 as a segment stream:
if there are no matches the whole text is returned; otherwise walk the
matches sorted by ascending offset. -/
def renderHighlightedText (text : Str) (matches' : List LTMatch) : List Segment :=
  if matches'.isEmpty then [.plain text]
  else renderWalk text 0 (mapWithIdx (fun i m => (m, i)) 0 (sortByKey LTMatch.offset matches'))

/-- The helper `replaceRange` from src/unnamed/part_004:
`text.slice(0, start) + replacement + text.slice(end)`. -/
def replaceRange (text : Str) (start en : Int) (replacement : Str) : Str :=
  jsSlice text 0 start ++ replacement ++ jsSliceFrom text en

/-- The function `applyFix` from src/languagetool-master/src/App.tsx:
`text.slice(0, match.offset) + replacement + text.slice(match.offset + match.length)`. -/
def applyFix (text : Str) (m : LTMatch) (replacement : Str) : Str :=
  jsSlice text 0 m.offset ++ replacement ++ jsSliceFrom text (m.offset + m.length)

/-- The component state of the part_006 `Editor` that `applyReplacement`
reads and writes. -/
structure EditorState where
  text : Str
  matches' : List LTMatch
deriving DecidableEq

/-- The function `applyReplacement` from src/unnamed/part_006 (lines 76-88): splice the
replacement into the text and keep only the matches whose `(offset, length)`
differs from the applied match. No offset is recomputed. -/
def editorApplyReplacement (s : EditorState) (m : LTMatch)
    (replacement : Str) : EditorState :=
  { text := jsSlice s.text 0 m.offset ++ replacement ++
      jsSliceFrom s.text (m.offset + m.length),
    matches' := s.matches'.filter fun x =>
      !(x.offset == m.offset && x.length == m.length) }

/-- The function `applyReplacement` from src/unnamed/part_004 (lines 225-239): look the
match up by index (no-op when the index is out of range), splice via
`replaceRange`, and leave the match set untouched (only the selection is
cleared; a later debounced re-check refreshes the matches). -/
def appApplyReplacement (text : Str) (matches' : List LTMatch)
    (matchIdx : Nat) (replacement : Str) : Str × List LTMatch :=
  match matches'.get? matchIdx with
  | none => (text, matches')
  | some m => (replaceRange text m.offset (m.offset + m.length) replacement, matches')

/-- State of the languagetool-master `App` that the analysis effect touches
(matches, selection, loading flag, error banner) together with the request
bookkeeping: `current` is the token of the controller held in `abortRef`,
`aborted` the tokens whose `abort()` has been called, and `nextToken` a
fresh-token counter (tokens model `AbortController` identities). -/
structure SchedState where
  matches' : List LTMatch
  selectedIdx : Nat
  loading : Bool
  err : Option Str
  current : Option Nat
  nextToken : Nat
  aborted : List Nat
deriving DecidableEq

/-- Initial scheduler state. -/
def initSched : SchedState :=
  { matches' := [], selectedIdx := 0, loading := false, err := none,
    current := none, nextToken := 0, aborted := [] }

/-- Events of the analysis effect of src/languagetool-master/src/App.tsx
(lines 96-124): a new request is issued, or the fetch of a given request
settles (fulfilled with a match list, or rejected with an error message). -/
inductive SchedEvent
  | issue
  | resolveOk (token : Nat) (response : List LTMatch)
  | resolveErr (token : Nat) (msg : Str)

/-- One step of the effect. `issue` models
`abortRef.current?.abort(); abortRef.current = new AbortController();
setLoading(true); setErr(null)` followed by starting `ltCheck`. A settlement
of an aborted request reaches the handlers as an `AbortError` rejection,
whose catch clause returns without touching state (only the `finally` clears
`loading`); a live fulfilment runs `setMatches(m); setSelectedIdx(0)`, and a
live rejection runs `setErr(...); setMatches([])`. -/
def schedStep (s : SchedState) : SchedEvent → SchedState
  | .issue =>
    { s with
      aborted := (match s.current with | some t => t :: s.aborted | none => s.aborted),
      current := some s.nextToken,
      nextToken := s.nextToken + 1,
      loading := true,
      err := none }
  | .resolveOk t resp =>
    if t ∈ s.aborted then { s with loading := false }
    else { s with matches' := resp, selectedIdx := 0, loading := false }
  | .resolveErr t msg =>
    if t ∈ s.aborted then { s with loading := false }
    else { s with err := some (jsOrStr msg (S "Failed to check text")),
                  matches' := [], loading := false }

/-- Run the scheduler over a list of events. -/
def runSched (s : SchedState) (evs : List SchedEvent) : SchedState :=
  evs.foldl schedStep s

/-- Entry of the debounced effect (src/languagetool-master/src/App.tsx,
lines 96-111): tiny input (`debouncedText.trim().length < 3`) clears the
matches and the error and returns without issuing a request; otherwise a
request is issued. The returned Bool records whether a request was issued. -/
def ltmDebounce (s : SchedState) (text : Str) : SchedState × Bool :=
  if (jsTrim text).length < 3 then
    ({ s with matches' := [], err := none }, false)
  else (schedStep s .issue, true)

/-- Decision taken by `checkText` of src/unnamed/part_006 (lines 28-66):
empty trimmed content clears the matches and returns; otherwise a request
carrying the content is sent. -/
inductive EditorCheckAction
  | clearMatches
  | sendRequest (text : Str)
deriving DecidableEq

/-- The short-circuit test of `checkText`: `if (!content.trim()) ...`. -/
def editorCheckText (content : Str) : EditorCheckAction :=
  if jsTrim content = [] then .clearMatches else .sendRequest content

/-- Health status of the engine in src/App.tsx. -/
inductive Status
  | online
  | offline
deriving DecidableEq

/-- Severity of a suggestion in src/App.tsx. -/
inductive SuggestionSeverity
  | critical
  | warning
  | info
deriving DecidableEq

/-- A suggestion of src/App.tsx. `apply` is the optional rewriting closure. -/
structure Suggestion where
  id : Str
  severity : SuggestionSeverity
  title : Str
  detail : Str
  before : Option Str := none
  after : Option Str := none
  apply : Option (Str → Str) := none

/-- JS `\w`: ASCII letters, digits and underscore. -/
def isWordChar (c : Char) : Bool :=
  (decide ('a' ≤ c) && decide (c ≤ 'z')) ||
  (decide ('A' ≤ c) && decide (c ≤ 'Z')) ||
  (decide ('0' ≤ c) && decide (c ≤ '9')) || c == '_'

/-- Whether the head of a string is a word character (empty = no). -/
def headIsWord : Str → Bool
  | [] => false
  | c :: _ => isWordChar c

/-- The test `/\bi\b/.test(t)`: scan for a standalone lowercase `i`; `prev` records
whether the previous character is a word character. -/
def regexWordI : Bool → Str → Bool
  | _, [] => false
  | prev, c :: cs =>
    (!prev && c == 'i' && !headIsWord cs) || regexWordI (isWordChar c) cs

/-- The test `/ {2,}/.test(t)`: two consecutive literal spaces. -/
def hasDoubleSpace : Str → Bool
  | a :: b :: rest => (a == ' ' && b == ' ') || hasDoubleSpace (b :: rest)
  | _ => false

/-- The test `/!{2,}/.test(t)`: two consecutive exclamation marks. -/
def hasDoubleBang : Str → Bool
  | a :: b :: rest => (a == '!' && b == '!') || hasDoubleBang (b :: rest)
  | _ => false

/-- The characters `[.!?]` of the sentence-splitting regex. -/
def isSentencePunct (c : Char) : Bool := c == '.' || c == '!' || c == '?'

/-- The split `t.split(/[.!?]\s/)`: cut the string at every occurrence of a sentence
punctuation character followed by a whitespace character, consuming both. -/
def splitSentencesAux (acc : Str) : Str → List Str
  | [] => [acc.reverse]
  | [c] => [(c :: acc).reverse]
  | c :: d :: rest =>
    if isSentencePunct c && isJsSpace d then acc.reverse :: splitSentencesAux [] rest
    else splitSentencesAux (c :: acc) (d :: rest)

/-- The split `t.split(/[.!?]\s/)`. -/
def splitSentences (t : Str) : List Str := splitSentencesAux [] t

/-- Number of maximal non-whitespace runs. -/
def countTokensAux : Bool → Str → Nat
  | _, [] => 0
  | inWord, c :: cs =>
    if isJsSpace c then countTokensAux false cs
    else (if inWord then 0 else 1) + countTokensAux true cs

/-- The count `s.trim().split(/\s+/).length`: splitting the trimmed string on
whitespace runs yields `[""]` (length 1) for an all-whitespace string and
one token per non-whitespace run otherwise. -/
def jsWordSplitLen (s : Str) : Nat :=
  let t := jsTrim s
  if t = [] then 1 else countTokensAux false t

/-- Case-insensitive prefix test (ASCII folding), for `/^(…)/i`. -/
def startsWithCI : Str → Str → Bool
  | [], _ => true
  | _ :: _, [] => false
  | a :: as, b :: bs => (Char.toLower a == Char.toLower b) && startsWithCI as bs

/-- Whether `w` matches at the start of `l` followed by a word boundary. -/
def startsWithWordCI (w : Str) (l : Str) : Bool :=
  startsWithCI w l && !headIsWord (l.drop w.length)

/-- The test `/^(so|okay|ok|well)\b/i.test(t.trim())`. -/
def weakOpenerTest (t : Str) : Bool :=
  let tr := jsTrim t
  startsWithWordCI (S "so") tr || startsWithWordCI (S "okay") tr ||
  startsWithWordCI (S "ok") tr || startsWithWordCI (S "well") tr

/-- The test `/\bim\b/i.test(t)`: standalone `im`, case-insensitive. -/
def regexWordIm : Bool → Str → Bool
  | prev, a :: b :: rest =>
    (!prev && (a == 'i' || a == 'I') && (b == 'm' || b == 'M') && !headIsWord rest) ||
    regexWordIm (isWordChar a) (b :: rest)
  | _, _ => false

/-- The rewrite `s.replace(/\bi\b/g, 'I')`. -/
def replaceWordI : Bool → Str → Str
  | _, [] => []
  | prev, c :: cs =>
    if !prev && c == 'i' && !headIsWord cs then 'I' :: replaceWordI true cs
    else c :: replaceWordI (isWordChar c) cs

/-- The rewrite `s.replace(/\bim\b/gi, "I'm")`. -/
def replaceWordIm : Bool → Str → Str
  | _, [] => []
  | _, [c] => [c]
  | prev, a :: b :: rest =>
    if !prev && (a == 'i' || a == 'I') && (b == 'm' || b == 'M') && !headIsWord rest
    then 'I' :: Char.ofNat 39 :: 'm' :: replaceWordIm true rest
    else a :: replaceWordIm (isWordChar a) (b :: rest)

/-- The rewrite `s.replace(/c{2,}/g, c)` for a single character `c`: every character
equal to `c` that is immediately followed by another `c` is dropped, which
collapses each run of two or more down to one. -/
def collapseRuns (c : Char) : Str → Str
  | [] => []
  | [x] => [x]
  | x :: y :: rest =>
    if x == c && y == c then collapseRuns c (y :: rest)
    else x :: collapseRuns c (y :: rest)

/-- The helper `truncate` from src/App.tsx: `s.slice(0, n - 1) + '…'` past `n`. -/
def truncate (s : Str) (n : Nat) : Str :=
  if s.length ≤ n then s else s.take (n - 1) ++ ['…']

/-- The function `buildSuggestions` from src/App.tsx (lines 522-607): the deterministic
local fallback heuristic. Empty trimmed input returns `[]`; otherwise the
six pattern checks push their suggestions in order, and the result is
`out.slice(0, 10)`. -/
def buildSuggestions (text : Str) : List Suggestion :=
  let t := text
  if (jsTrim t).length = 0 then []
  else
    let s1 : List Suggestion :=
      if regexWordI false t then
        [{ id := S "cap-i", severity := .warning,
           title := S "Capitalize “I”",
           detail := S "Capitalizing the first-person pronoun improves professionalism and readability.",
           before := some (S "i am working on this..."),
           after := some (S "I am working on this..."),
           apply := some (replaceWordI false) }]
      else []
    let s2 : List Suggestion :=
      if hasDoubleSpace t then
        [{ id := S "double-space", severity := .info,
           title := S "Remove extra spaces",
           detail := S "Extra spaces can make your writing feel uneven.",
           before := some (S "This  has  extra spaces."),
           after := some (S "This has extra spaces."),
           apply := some (collapseRuns ' ') }]
      else []
    let s3 : List Suggestion :=
      match (splitSentences t).find? (fun s => decide (30 < jsWordSplitLen s)) with
      | some longSent =>
        [{ id := S "long-sentence", severity := .warning,
           title := S "Consider splitting a long sentence",
           detail := S "Long sentences can be harder to follow. Split it into two clear thoughts.",
           before := some (truncate (jsTrim longSent) 110),
           after := some (S "Split into two shorter sentences for clarity.") }]
      | none => []
    let s4 : List Suggestion :=
      if weakOpenerTest t then
        [{ id := S "opener", severity := .info,
           title := S "Strengthen your opening line",
           detail := S "Starting with a direct statement sets a confident tone.",
           before := some (truncate (jsTrim t) 80),
           after := some (S "Try opening with the core point you want to convey.") }]
      else []
    let s5 : List Suggestion :=
      if regexWordIm false t then
        [{ id := S "im-contraction", severity := .critical,
           title := S "Fix contraction “I’m”",
           detail := S "Correct contractions improve clarity and reduce friction for readers.",
           before := some (S "im working on it"),
           after := some (S "I’m working on it"),
           apply := some (replaceWordIm false) }]
      else []
    let s6 : List Suggestion :=
      if hasDoubleBang t then
        [{ id := S "exclaim", severity := .warning,
           title := S "Reduce repeated exclamation marks",
           detail := S "A single exclamation mark is usually enough.",
           before := some (S "This is amazing!!!"),
           after := some (S "This is amazing!"),
           apply := some (collapseRuns '!') }]
      else []
    jsSlice (s1 ++ s2 ++ s3 ++ s4 ++ s5 ++ s6) 0 10

/-- Decimal rendering of a JS number used in template literals. -/
def intToStr (i : Int) : Str :=
  if i < 0 then '-' :: Nat.toDigits 10 i.natAbs else Nat.toDigits 10 i.natAbs

/-- The body of `sorted.map((m, idx) => …)` in
`mapLanguageToolMatchesToSuggestions` (src/App.tsx, lines 399-422). -/
def suggestionOfMatch (fullText : Str) (idx : Nat) (m : LTMatch) : Suggestion :=
  let issueType := jsToLower (jsOrOpt (m.rule.bind LTRule.issueType) [])
  let bestReplacement := m.replacements.head?
  { id := jsOrOpt (m.rule.bind LTRule.id) (S "match") ++ S "-" ++
      intToStr m.offset ++ S "-" ++ intToStr m.length ++ S "-" ++ Nat.toDigits 10 idx,
    severity :=
      if issueType = S "misspelling" ∨ issueType = S "grammar" then .critical
      else if issueType = S "style" then .warning
      else .info,
    title := jsOrOpt m.shortMessage
      (jsOrOpt (m.rule.bind LTRule.description)
        (jsOrOpt (m.rule.bind LTRule.id) (S "Suggestion"))),
    detail := jsOrStr m.message (S "Possible improvement."),
    before := some (jsSlice fullText m.offset (m.offset + m.length)),
    after := (match bestReplacement with
      | some v => if v = [] then none else some v
      | none => none),
    apply := (match bestReplacement with
      | some v =>
        if v = [] then none
        else some fun current =>
          jsSlice current 0 m.offset ++ v ++ jsSliceFrom current (m.offset + m.length)
      | none => none) }

/-- The function `mapLanguageToolMatchesToSuggestions` from src/App.tsx: sort the matches
by ascending offset (stable) and derive one suggestion per match. -/
def mapLanguageToolMatchesToSuggestions (matches' : List LTMatch)
    (fullText : Str) : List Suggestion :=
  mapWithIdx (suggestionOfMatch fullText) 0 (sortByKey LTMatch.offset matches')

/-- The claim's severity classification, stated from the spec's words: the
match's `rule.issueType`, compared case-insensitively, maps
`misspelling`/`grammar` to critical and `style` to warning; every other
value, a missing rule, or a missing issueType maps to info. -/
def claimSeverity : Option Str → SuggestionSeverity
  | none => .info
  | some s =>
    if jsToLower s = S "misspelling" ∨ jsToLower s = S "grammar" then .critical
    else if jsToLower s = S "style" then .warning
    else .info

/-- The `data` object of the proxy payload (src/App.tsx `LTCheckPayload`). -/
structure LTData where
  matches' : Option (List LTMatch) := none

/-- The payload returned by the `/api/lt/check` proxy. -/
structure LTCheckPayload where
  ok : Bool
  status : Option Int := none
  error : Option Str := none
  data : Option LTData := none

/-- Outcome of the scheduled fetch in src/App.tsx: a thrown network error
(the catch branch), or a response whose JSON body parsed to `null` or to a
payload. -/
inductive FetchResult
  | networkError
  | response (payload : Option LTCheckPayload)

/-- Decision of the debounced effect in src/App.tsx (lines 79-115) before
any fetch resolves: offline falls back to `buildSuggestions(text)` without
scheduling a request; online with empty trimmed text clears the
suggestions; otherwise a request carrying the trimmed text is scheduled. -/
inductive AppAction
  | fallback (suggestions : List Suggestion)
  | clear
  | scheduleFetch (text : Str)

/-- The branch structure of the debounced effect in src/App.tsx. -/
def appEffectAction (status : Status) (text : Str) : AppAction :=
  if status ≠ .online then .fallback (buildSuggestions text)
  else if jsTrim text = [] then .clear
  else .scheduleFetch (jsTrim text)

/-- The response handling of the scheduled fetch (src/App.tsx, lines
99-110): `if (!payload?.ok || !payload.data?.matches)` fall back to
`buildSuggestions(text)`, as does the catch branch; otherwise map the
matches to suggestions. -/
def appHandleResponse (text : Str) (r : FetchResult) : List Suggestion :=
  match r with
  | .networkError => buildSuggestions text
  | .response none => buildSuggestions text
  | .response (some p) =>
    if !p.ok then buildSuggestions text
    else
      match p.data with
      | none => buildSuggestions text
      | some d =>
        match d.matches' with
        | none => buildSuggestions text
        | some ms => mapLanguageToolMatchesToSuggestions ms text

/-- The fetch outcomes that the claim says must fall back: a failed request,
an unparseable or non-ok payload, or a payload without matches. -/
def fetchFallsBack : FetchResult → Bool
  | .networkError => true
  | .response none => true
  | .response (some p) =>
    !p.ok || (match p.data with | none => true | some d => d.matches'.isNone)

/-- The rewrite `replace(/\/+$/, '')`: strip the trailing run of slashes. -/
def stripTrailingSlashes (l : Str) : Str := dropTrailing (· == '/') l

/-- Character-exact prefix test. -/
def startsWithStr : Str → Str → Bool
  | [], _ => true
  | _ :: _, [] => false
  | a :: as, b :: bs => a == b && startsWithStr as bs

/-- JS `String.prototype.endsWith`. -/
def endsWithStr (l suf : Str) : Bool := startsWithStr suf.reverse l.reverse

/-- The function `normalizeBaseUrl` from src/unnamed/part_007 and
src/functions/api/lt/check.ts: trim, strip trailing slashes, throw (`none`)
when empty, and append `/v2` unless already present. -/
def normalizeBaseUrl (raw : Str) : Option Str :=
  let base := stripTrailingSlashes (jsTrim (jsOrStr raw []))
  if base = [] then none
  else some (if endsWithStr base (S "/v2") then base else base ++ S "/v2")

/-- Admissibility of a sorted span list for the part_004 walk: whenever a
span is not skipped (its clamped end exceeds the cursor), its clamped start
must not lie before the cursor nor after its clamped end. Overlapping
spans that the code renders anyway violate this. -/
def annotateWalkOk (text : Str) : Nat → List (LTMatch × Nat) → Bool
  | _, [] => true
  | cursor, s :: rest =>
    let st := (clamp s.1.offset 0 text.length).toNat
    let en := (clamp (s.1.offset + s.1.length) 0 text.length).toNat
    if en ≤ cursor then annotateWalkOk text cursor rest
    else decide (cursor ≤ st) && decide (st ≤ en) && annotateWalkOk text en rest

/-- Admissibility of a sorted span list for the part_006 walk: every span
must start at or after the previous span's end and have a non-negative
length. -/
def renderWalkOk : Int → List (LTMatch × Nat) → Bool
  | _, [] => true
  | lastIndex, (m, _) :: rest =>
    decide (lastIndex ≤ m.offset) && decide (0 ≤ m.length) &&
    renderWalkOk (m.offset + m.length) rest

theorem jsSlice_natCast (l : List α) (a b : Nat) :
    jsSlice l (a : Int) (b : Int) = (l.take b).drop a := by
  have hb : jsSliceNorm l.length (b : Int) = min b l.length := by
    simp only [jsSliceNorm]
    omega
  have ha : jsSliceNorm l.length (a : Int) = min a l.length := by
    simp only [jsSliceNorm]
    omega
  rw [jsSlice, hb, ha]
  have h1 : l.take (min b l.length) = l.take b := by
    rcases le_total b l.length with h | h
    · rw [min_eq_left h]
    · rw [min_eq_right h, List.take_length, List.take_of_length_le h]
  rw [h1]
  rcases le_total a l.length with h | h
  · rw [min_eq_left h]
  · rw [min_eq_right h]
    rw [List.drop_eq_nil_of_le, List.drop_eq_nil_of_le]
    · exact le_trans (by simp [List.length_take]) h
    · simp [List.length_take]

theorem jsSliceFrom_natCast (l : List α) (a : Nat) :
    jsSliceFrom l (a : Int) = l.drop a := by
  have ha : jsSliceNorm l.length (a : Int) = min a l.length := by
    simp only [jsSliceNorm]
    omega
  rw [jsSliceFrom, ha]
  rcases le_total a l.length with h | h
  · rw [min_eq_left h]
  · rw [min_eq_right h]
    rw [List.drop_eq_nil_of_le le_rfl, List.drop_eq_nil_of_le h]

theorem take_drop_glue (l : List α) (a b : Nat) (hab : a ≤ b)
    (hbl : b ≤ l.length) : (l.take b).drop a ++ l.drop b = l.drop a := by
  conv_rhs => rw [← List.take_append_drop b l]
  rw [List.drop_append_of_le_length]
  simp [List.length_take]
  omega

theorem segConcat_cons (s : Segment) (rest : List Segment) :
    segConcat (s :: rest) = segText s ++ segConcat rest := rfl

theorem clamp_toNat_le (n : Int) (len : Nat) :
    (clamp n 0 (len : Int)).toNat ≤ len := by
  simp only [clamp]
  omega

theorem annotateWalk_concat (text : Str) (sel : Option Nat) :
    ∀ (spans : List (LTMatch × Nat)) (cursor : Nat),
      cursor ≤ text.length →
      annotateWalkOk text cursor spans = true →
      segConcat (annotateWalk text sel cursor spans) = text.drop cursor := by
  intro spans
  induction spans with
  | nil =>
    intro cursor _ _
    simp [annotateWalk, segConcat, segText, jsSliceFrom_natCast]
  | cons s rest ih =>
    intro cursor hcur hok
    simp only [annotateWalk, annotateWalkOk] at hok ⊢
    by_cases hskip :
        (clamp (s.1.offset + s.1.length) 0 (text.length : Int)).toNat ≤ cursor
    · rw [if_pos hskip] at hok ⊢
      exact ih cursor hcur hok
    · rw [if_neg hskip] at hok ⊢
      simp only [Bool.and_eq_true, decide_eq_true_eq] at hok
      obtain ⟨⟨hcs', hse'⟩, hrest⟩ := hok
      have hen : (clamp (s.1.offset + s.1.length) 0 (text.length : Int)).toNat ≤
          text.length := clamp_toNat_le _ _
      rw [segConcat_cons, segConcat_cons]
      rw [ih _ hen hrest]
      simp only [segText, jsSlice_natCast]
      rw [take_drop_glue text _ _ hse' hen,
          take_drop_glue text _ _ hcs' (le_trans hse' hen)]

theorem jsSlice_glue_int (l : List α) (a b : Int) (h0 : 0 ≤ a) (hab : a ≤ b) :
    jsSlice l a b ++ jsSliceFrom l b = jsSliceFrom l a := by
  have hb0 : 0 ≤ b := le_trans h0 hab
  have ea : (a.toNat : Int) = a := Int.toNat_of_nonneg h0
  have eb : (b.toNat : Int) = b := Int.toNat_of_nonneg hb0
  rw [← ea, ← eb, jsSlice_natCast, jsSliceFrom_natCast, jsSliceFrom_natCast]
  rcases le_total b.toNat l.length with h | h
  · exact take_drop_glue l a.toNat b.toNat (by omega) h
  · rw [List.drop_eq_nil_of_le h, List.append_nil]
    rcases le_total a.toNat l.length with h2 | h2
    · rw [List.take_of_length_le h]
    · rw [List.drop_eq_nil_of_le, List.drop_eq_nil_of_le h2]
      simp [List.length_take]
      omega

theorem renderWalk_concat (text : Str) :
    ∀ (spans : List (LTMatch × Nat)) (lastIndex : Int),
      0 ≤ lastIndex →
      renderWalkOk lastIndex spans = true →
      segConcat (renderWalk text lastIndex spans) = jsSliceFrom text lastIndex := by
  intro spans
  induction spans with
  | nil =>
    intro lastIndex _ _
    simp [renderWalk, segConcat, segText]
  | cons s rest ih =>
    intro lastIndex h0 hok
    obtain ⟨m, i⟩ := s
    simp only [renderWalk, renderWalkOk] at hok ⊢
    simp only [Bool.and_eq_true, decide_eq_true_eq] at hok
    obtain ⟨⟨hlo', hlen'⟩, hrest⟩ := hok
    rw [segConcat_cons, segConcat_cons]
    rw [ih (m.offset + m.length) (by omega) hrest]
    simp only [segText]
    rw [jsSlice_glue_int text m.offset (m.offset + m.length) (by omega) (by omega),
        jsSlice_glue_int text lastIndex m.offset h0 hlo']

theorem jsSliceFrom_zero (l : List α) : jsSliceFrom l 0 = l := by
  have h := jsSliceFrom_natCast l 0
  simpa using h

/-- C1: the claimed lossless round-trip fails on the code as stated: for the
buffer `"hello world"` and the overlapping matches
`[{offset 0, length 5}, {offset 3, length 4}]`, concatenating the emitted
segment texts yields `"hellolo world"`, not the buffer. -/
theorem C1_counterexample :
    segConcat (buildSegments (S "hello world")
      [{ offset := 0, length := 5 }, { offset := 3, length := 4 }] none) ≠
    S "hello world" := by decide

/-- C1 (amended): concatenating the segment texts reproduces the buffer
provided no rendered span crosses the cursor: in part_004's walk, every
non-skipped span's clamped start lies between the cursor and its clamped
end (`annotateWalkOk`), and in part_006's walk every span starts at or
after the previous span's end and has non-negative length (`renderWalkOk`).
In particular this holds for sorted, pairwise non-overlapping match sets;
for overlapping matches the annotators re-emit the overlapped characters. -/
theorem C1_roundtrip_amended :
    (∀ (text : Str) (ms : List LTMatch) (sel : Option Nat),
      annotateWalkOk text 0 (sortByKey (fun s => s.1.offset) (withIdx ms)) = true →
      segConcat (buildSegments text ms sel) = text) ∧
    (∀ (text : Str) (ms : List LTMatch),
      renderWalkOk 0 (mapWithIdx (fun i m => (m, i)) 0 (sortByKey LTMatch.offset ms)) = true →
      segConcat (renderHighlightedText text ms) = text) := by
  constructor
  · intro text ms sel h
    rw [buildSegments, annotateWalk_concat text sel _ 0 (Nat.zero_le _) h,
        List.drop_zero]
  · intro text ms h
    rw [renderHighlightedText]
    by_cases he : ms.isEmpty
    · rw [if_pos he]
      simp [segConcat, segText]
    · rw [if_neg he, renderWalk_concat text _ 0 le_rfl h, jsSliceFrom_zero]

theorem C1_roundtrip_amended_witness :
    segConcat (buildSegments (S "hello world")
      [{ offset := 0, length := 5 }, { offset := 6, length := 5 }] (some 1)) =
      S "hello world" ∧
    segConcat (renderHighlightedText (S "ab cd") [{ offset := 0, length := 2 }]) =
      S "ab cd" :=
  ⟨C1_roundtrip_amended.1 _ _ _ (by decide),
   C1_roundtrip_amended.2 _ _ (by decide)⟩

/-- C2: the claimed first-match-wins policy fails on the code: for
`[{offset 0, length 5}, {offset 3, length 4}]` over `"hello world"` the
second match is not dropped — the output contains two highlighted segments,
`"hello"` and `"lo w"`, not exactly one spanning `"hello"`. -/
theorem C2_counterexample :
    highlightedTexts (buildSegments (S "hello world")
      [{ offset := 0, length := 5 }, { offset := 3, length := 4 }] none) ≠
      [S "hello"] ∧
    (highlightedTexts (buildSegments (S "hello world")
      [{ offset := 0, length := 5 }, { offset := 3, length := 4 }] none)).length = 2 := by
  decide

/-- C2 (amended): the annotator walks the matches sorted by ascending offset
and skips a later match exactly when its clamped end is at or before the
cursor, not whenever its clamped start lies before the cursor; consequently
for `[{offset 0, length 5}, {offset 3, length 4}]` over `"hello world"` the
second match is kept and the output's highlighted segments are `"hello"`
and `"lo w"`. -/
theorem C2_overlap_amended :
    (∀ (text : Str) (sel : Option Nat) (cursor : Nat) (s : LTMatch × Nat)
      (rest : List (LTMatch × Nat)),
      (clamp (s.1.offset + s.1.length) 0 (text.length : Int)).toNat ≤ cursor →
      annotateWalk text sel cursor (s :: rest) = annotateWalk text sel cursor rest) ∧
    highlightedTexts (buildSegments (S "hello world")
      [{ offset := 0, length := 5 }, { offset := 3, length := 4 }] none) =
      [S "hello", S "lo w"] := by
  constructor
  · intro text sel cursor s rest h
    simp only [annotateWalk]
    rw [if_pos h]
  · decide

theorem C2_overlap_amended_witness :
    annotateWalk (S "abc") none 2 [({ offset := 0, length := 1 }, 0)] =
      annotateWalk (S "abc") none 2 [] :=
  C2_overlap_amended.1 _ _ _ _ _ (by decide)

theorem applyFix_take_drop (text : Str) (off len : Int) (repl : Str)
    (h1 : 0 ≤ off) (h2 : 0 ≤ len) :
    jsSlice text 0 off ++ repl ++ jsSliceFrom text (off + len) =
      text.take off.toNat ++ repl ++ text.drop (off.toNat + len.toNat) := by
  have hA := jsSlice_natCast text 0 off.toNat
  rw [Int.toNat_of_nonneg h1] at hA
  norm_num at hA
  have hB := jsSliceFrom_natCast text (off + len).toNat
  rw [Int.toNat_of_nonneg (show (0:Int) ≤ off + len by omega)] at hB
  have hC : (off + len).toNat = off.toNat + len.toNat := by omega
  rw [hA, hB, hC]

/-- C3: applying a replacement produces exactly
`buffer[0:offset] ++ replacementText ++ buffer[offset+length:]`, for every
in-range match (`applyFix` of languagetool-master, and `replaceRange` of
part_004 invoked at `(offset, offset + length)` agree with it). -/
theorem C3_replacement :
    ∀ (text : Str) (m : LTMatch) (repl : Str),
      0 ≤ m.offset → 0 ≤ m.length → m.offset + m.length ≤ (text.length : Int) →
      applyFix text m repl =
        text.take m.offset.toNat ++ repl ++
          text.drop (m.offset.toNat + m.length.toNat) ∧
      replaceRange text m.offset (m.offset + m.length) repl =
        applyFix text m repl := by
  intro text m repl h1 h2 _
  constructor
  · rw [applyFix]
    exact applyFix_take_drop text m.offset m.length repl h1 h2
  · rfl

theorem C3_replacement_witness :
    applyFix (S "abcdef") { offset := 1, length := 2 } (S "XY") = S "aXYdef" ∧
    replaceRange (S "abcdef") 1 (1 + 2) (S "XY") =
      applyFix (S "abcdef") { offset := 1, length := 2 } (S "XY") :=
  ⟨(C3_replacement (S "abcdef") { offset := 1, length := 2 } (S "XY")
      (by decide) (by decide) (by decide)).1.trans (by decide),
   (C3_replacement (S "abcdef") { offset := 1, length := 2 } (S "XY")
      (by decide) (by decide) (by decide)).2⟩

/-- C4: the claimed offset shift fails on the code: applying the match at
offset 2, length 3 of `"I has a pen."` with `"have"` produces the buffer
`"I have a pen."` but leaves the remaining match's offset at 9 — it is not
shifted to 10. -/
theorem C4_counterexample :
    (editorApplyReplacement
      { text := S "I has a pen.",
        matches' := [{ offset := 2, length := 3, replacements := [S "have"] },
                     { offset := 9, length := 3 }] }
      { offset := 2, length := 3, replacements := [S "have"] } (S "have")).text =
      S "I have a pen." ∧
    ((editorApplyReplacement
      { text := S "I has a pen.",
        matches' := [{ offset := 2, length := 3, replacements := [S "have"] },
                     { offset := 9, length := 3 }] }
      { offset := 2, length := 3, replacements := [S "have"] }
        (S "have")).matches'.map LTMatch.offset) = [9] ∧
    ((editorApplyReplacement
      { text := S "I has a pen.",
        matches' := [{ offset := 2, length := 3, replacements := [S "have"] },
                     { offset := 9, length := 3 }] }
      { offset := 2, length := 3, replacements := [S "have"] }
        (S "have")).matches'.map LTMatch.offset) ≠ [10] := by
  decide

/-- C4 (amended): after an apply in part_006 the applied match (and every
match with the same offset and length) is removed, but every surviving
match is kept verbatim — offsets are never shifted; the buffer itself is
spliced per the C3 formula. In part_004's `applyReplacement` the match set
is left entirely unchanged (a later debounced re-check refreshes it). -/
theorem C4_apply_amended :
    ∀ (st : EditorState) (m : LTMatch) (repl : Str),
      (∀ x ∈ (editorApplyReplacement st m repl).matches', x ∈ st.matches') ∧
      m ∉ (editorApplyReplacement st m repl).matches' ∧
      (0 ≤ m.offset → 0 ≤ m.length → m.offset + m.length ≤ (st.text.length : Int) →
        (editorApplyReplacement st m repl).text =
          st.text.take m.offset.toNat ++ repl ++
            st.text.drop (m.offset.toNat + m.length.toNat)) ∧
      (∀ (text : Str) (ms : List LTMatch) (i : Nat),
        (appApplyReplacement text ms i repl).2 = ms) := by
  intro st m repl
  refine ⟨?_, ?_, ?_, ?_⟩
  · intro x hx
    exact List.mem_of_mem_filter hx
  · intro hmem
    have h := (List.mem_filter.mp hmem).2
    simp at h
  · intro h1 h2 _
    simp only [editorApplyReplacement]
    exact applyFix_take_drop st.text m.offset m.length repl h1 h2
  · intro text ms i
    rw [appApplyReplacement]
    cases ms.get? i <;> rfl

theorem C4_apply_amended_witness :
    ({ offset := 2, length := 3, replacements := [S "have"] } : LTMatch) ∉
      (editorApplyReplacement
        { text := S "I has a pen.",
          matches' := [{ offset := 2, length := 3, replacements := [S "have"] },
                       { offset := 9, length := 3 }] }
        { offset := 2, length := 3, replacements := [S "have"] }
          (S "have")).matches' ∧
    (editorApplyReplacement
        { text := S "I has a pen.",
          matches' := [{ offset := 2, length := 3, replacements := [S "have"] },
                       { offset := 9, length := 3 }] }
        { offset := 2, length := 3, replacements := [S "have"] }
          (S "have")).text = S "I have a pen." ∧
    (appApplyReplacement (S "x") [] 0 (S "y")).2 = [] :=
  ⟨(C4_apply_amended _ _ _).2.1,
   ((C4_apply_amended
      { text := S "I has a pen.",
        matches' := [{ offset := 2, length := 3, replacements := [S "have"] },
                     { offset := 9, length := 3 }] }
      { offset := 2, length := 3, replacements := [S "have"] }
      (S "have")).2.2.1 (by decide) (by decide) (by decide)).trans (by decide),
   (C4_apply_amended { text := S "x", matches' := [] }
      { offset := 0, length := 0 } (S "y")).2.2.2 (S "x") [] 0⟩

theorem schedStep_issue_aborted (s : SchedState) :
    (schedStep s .issue).aborted =
      (match s.current with
        | some t => t :: s.aborted
        | none => s.aborted) := rfl

theorem schedStep_issue_current (s : SchedState) :
    (schedStep s .issue).current = some s.nextToken := rfl

theorem schedStep_issue_nextToken (s : SchedState) :
    (schedStep s .issue).nextToken = s.nextToken + 1 := rfl

theorem schedStep_resolveOk_stale (s : SchedState) (t : Nat)
    (resp : List LTMatch) (h : t ∈ s.aborted) :
    schedStep s (.resolveOk t resp) = { s with loading := false } := by
  simp only [schedStep]
  rw [if_pos h]

theorem schedStep_resolveOk_live (s : SchedState) (t : Nat)
    (resp : List LTMatch) (h : t ∉ s.aborted) :
    schedStep s (.resolveOk t resp) =
      { s with matches' := resp, selectedIdx := 0, loading := false } := by
  simp only [schedStep]
  rw [if_neg h]

theorem schedStep_bound (s : SchedState) (e : SchedEvent)
    (h1 : ∀ t ∈ s.aborted, t < s.nextToken)
    (h2 : ∀ c, s.current = some c → c < s.nextToken) :
    (∀ t ∈ (schedStep s e).aborted, t < (schedStep s e).nextToken) ∧
    (∀ c, (schedStep s e).current = some c → c < (schedStep s e).nextToken) := by
  cases e with
  | issue =>
    constructor
    · intro t ht
      rw [schedStep_issue_aborted] at ht
      rw [schedStep_issue_nextToken]
      cases hc : s.current with
      | none =>
        rw [hc] at ht
        exact lt_trans (h1 t ht) (Nat.lt_succ_self _)
      | some c =>
        rw [hc] at ht
        rcases List.mem_cons.mp ht with rfl | ht'
        · exact lt_trans (h2 t hc) (Nat.lt_succ_self _)
        · exact lt_trans (h1 t ht') (Nat.lt_succ_self _)
    · intro c hc
      rw [schedStep_issue_current] at hc
      rw [schedStep_issue_nextToken]
      injection hc with h
      omega
  | resolveOk t resp =>
    by_cases h : t ∈ s.aborted
    · rw [schedStep_resolveOk_stale s t resp h]
      exact ⟨h1, h2⟩
    · rw [schedStep_resolveOk_live s t resp h]
      exact ⟨h1, h2⟩
  | resolveErr t msg =>
    simp only [schedStep]
    split <;> exact ⟨h1, h2⟩

theorem runSched_bound :
    ∀ (evs : List SchedEvent) (s : SchedState),
      (∀ t ∈ s.aborted, t < s.nextToken) →
      (∀ c, s.current = some c → c < s.nextToken) →
      (∀ t ∈ (runSched s evs).aborted, t < (runSched s evs).nextToken) ∧
      (∀ c, (runSched s evs).current = some c → c < (runSched s evs).nextToken) := by
  intro evs
  induction evs with
  | nil => intro s h1 h2; exact ⟨h1, h2⟩
  | cons e evs ih =>
    intro s h1 h2
    have h := schedStep_bound s e h1 h2
    exact ih (schedStep s e) h.1 h.2

/-- C5: stale responses are discarded. After any event history, issue
request A (token `n`), then request B (token `n + 1`) before A settles;
B's response arrives, then A's late response arrives. The match set equals
B's response: issuing B aborted A's controller, so A's settlement is an
`AbortError` that the catch clause drops without touching the match set. -/
theorem C5_stale_discard (evs : List SchedEvent) (mA mB : List LTMatch) :
    (runSched initSched
      (evs ++ [SchedEvent.issue, SchedEvent.issue,
        SchedEvent.resolveOk ((runSched initSched evs).nextToken + 1) mB,
        SchedEvent.resolveOk (runSched initSched evs).nextToken mA])).matches' = mB := by
  obtain ⟨h1, h2⟩ := runSched_bound evs initSched
    (by intro t ht; simp [initSched] at ht)
    (by intro c hc; simp [initSched] at hc)
  generalize hgen : runSched initSched evs = s0 at *
  have hfold : List.foldl schedStep initSched evs = s0 := hgen
  show (List.foldl schedStep initSched (evs ++ _)).matches' = mB
  rw [List.foldl_append, hfold]
  simp only [List.foldl_cons, List.foldl_nil]
  have hab1 : ∀ t ∈ (schedStep (schedStep s0 .issue) .issue).aborted,
      t < s0.nextToken + 1 := by
    intro t ht
    simp only [schedStep_issue_aborted, schedStep_issue_current] at ht
    rcases List.mem_cons.mp ht with rfl | ht'
    · omega
    · cases hc : s0.current with
      | none =>
        rw [hc] at ht'
        exact lt_trans (h1 t ht') (Nat.lt_succ_self _)
      | some c =>
        rw [hc] at ht'
        rcases List.mem_cons.mp ht' with rfl | ht''
        · exact lt_trans (h2 t hc) (Nat.lt_succ_self _)
        · exact lt_trans (h1 t ht'') (Nat.lt_succ_self _)
  have hmem : s0.nextToken ∈ (schedStep (schedStep s0 .issue) .issue).aborted := by
    simp only [schedStep_issue_aborted, schedStep_issue_current]
    exact List.mem_cons_self _ _
  have hnot : (s0.nextToken + 1) ∉ (schedStep (schedStep s0 .issue) .issue).aborted := by
    intro hmem'
    have := hab1 _ hmem'
    omega
  rw [schedStep_resolveOk_live _ _ _ hnot]
  rw [schedStep_resolveOk_stale]
  exact hmem

/-- C6: the claimed 3-character short-circuit fails on the code as a whole:
the src/App.tsx scheduler, online, schedules a fetch for the buffer `"ab"`
even though its trimmed length 2 is below the claimed threshold — only the
languagetool-master scheduler uses the 3-character threshold. -/
theorem C6_counterexample :
    (jsTrim (S "ab")).length < 3 ∧
    appEffectAction .online (S "ab") = .scheduleFetch (S "ab") := by
  exact ⟨by decide, rfl⟩

/-- C6 (amended): each scheduler short-circuits on its own notion of
trivial input. The languagetool-master scheduler clears the match set and
the error, and issues no request, whenever the trimmed buffer is shorter
than 3 characters; the src/App.tsx scheduler (online) and the part_006
`checkText` clear without issuing a request only when the trimmed buffer is
empty — a 1- or 2-character buffer does issue a request there. -/
theorem C6_trivial_amended :
    (∀ (s : SchedState) (text : Str), (jsTrim text).length < 3 →
      ltmDebounce s text = ({ s with matches' := [], err := none }, false)) ∧
    (∀ text : Str, jsTrim text = [] → appEffectAction .online text = .clear) ∧
    (∀ content : Str, jsTrim content = [] →
      editorCheckText content = .clearMatches) := by
  refine ⟨?_, ?_, ?_⟩
  · intro s text h
    simp only [ltmDebounce]
    rw [if_pos h]
  · intro text h
    simp only [appEffectAction]
    rw [if_neg (show ¬(Status.online ≠ Status.online) by simp), if_pos h]
  · intro content h
    simp only [editorCheckText]
    rw [if_pos h]

theorem C6_trivial_amended_witness :
    ltmDebounce initSched (S "hi") =
      ({ initSched with matches' := [], err := none }, false) ∧
    appEffectAction .online (S " ") = .clear ∧
    editorCheckText (S "") = .clearMatches :=
  ⟨C6_trivial_amended.1 initSched (S "hi") (by decide),
   C6_trivial_amended.2.1 (S " ") (by decide),
   C6_trivial_amended.2.2 (S "") (by decide)⟩

/-- C7: while the health status is offline the debounced effect never
schedules a fetch and sets the suggestions to `buildSuggestions(text)`; and
whenever a request fails, its payload is unparseable or not ok, or the
payload lacks a match array, the response handler substitutes
`buildSuggestions(text)` as well. -/
theorem C7_offline_fallback :
    (∀ text : Str,
      appEffectAction .offline text = .fallback (buildSuggestions text)) ∧
    (∀ text body : Str, appEffectAction .offline text ≠ .scheduleFetch body) ∧
    (∀ (text : Str) (r : FetchResult), fetchFallsBack r = true →
      appHandleResponse text r = buildSuggestions text) := by
  refine ⟨?_, ?_, ?_⟩
  · intro text
    simp only [appEffectAction]
    rw [if_pos (show (Status.offline ≠ Status.online) by simp)]
  · intro text body
    simp only [appEffectAction]
    rw [if_pos (show (Status.offline ≠ Status.online) by simp)]
    simp
  · intro text r h
    cases r with
    | networkError => rfl
    | response payload =>
      cases payload with
      | none => rfl
      | some p =>
        cases hok : p.ok with
        | false => simp [appHandleResponse, hok]
        | true =>
          cases hd : p.data with
          | none => simp [appHandleResponse, hok, hd]
          | some d =>
            cases hm : d.matches' with
            | none => simp [appHandleResponse, hok, hd, hm]
            | some ms =>
              simp only [fetchFallsBack] at h
              rw [hok, hd] at h
              simp [hm] at h

theorem C7_offline_fallback_witness :
    appEffectAction .offline (S "hi") = .fallback (buildSuggestions (S "hi")) ∧
    appHandleResponse (S "hi") .networkError = buildSuggestions (S "hi") :=
  ⟨C7_offline_fallback.1 (S "hi"),
   C7_offline_fallback.2.2 (S "hi") .networkError (by decide)⟩

theorem suggestionOfMatch_severity (text : Str) (i : Nat) (m : LTMatch) :
    (suggestionOfMatch text i m).severity =
      claimSeverity (m.rule.bind LTRule.issueType) := by
  simp only [suggestionOfMatch]
  cases ho : m.rule.bind LTRule.issueType with
  | none => decide
  | some s =>
    by_cases hs : s = []
    · subst hs
      decide
    · simp only [jsOrOpt, claimSeverity, if_neg hs]

theorem mapWithIdx_severity (text : Str) :
    ∀ (l : List LTMatch) (i : Nat),
      (mapWithIdx (suggestionOfMatch text) i l).map Suggestion.severity =
        l.map (fun m => claimSeverity (m.rule.bind LTRule.issueType)) := by
  intro l
  induction l with
  | nil => intro i; rfl
  | cons x xs ih =>
    intro i
    simp only [mapWithIdx, List.map_cons]
    rw [suggestionOfMatch_severity, ih]

/-- C8: the severity of every derived suggestion is a pure function of its
match's `rule.issueType` alone — lowercase `misspelling` and `grammar` give
critical, `style` gives warning, anything else (including a missing rule or
issueType, or an empty issueType) gives info — independent of the buffer,
the match position, and the other fields. -/
theorem C8_severity (ms : List LTMatch) (text : Str) :
    (mapLanguageToolMatchesToSuggestions ms text).map Suggestion.severity =
      (sortByKey LTMatch.offset ms).map
        (fun m => claimSeverity (m.rule.bind LTRule.issueType)) := by
  simp only [mapLanguageToolMatchesToSuggestions]
  exact mapWithIdx_severity text _ 0

theorem dropWhile_eq_nil_of_all {p : Char → Bool} :
    ∀ l : Str, l.all p = true → l.dropWhile p = [] := by
  intro l h
  induction l with
  | nil => rfl
  | cons a as ih =>
    simp only [List.all_cons, Bool.and_eq_true] at h
    simp only [List.dropWhile_cons, h.1, if_true]
    exact ih h.2

/-- C9: the local fallback heuristic returns at most 10 suggestions for
every input (it pushes at most six and slices to 10), and returns the empty
list on every empty or whitespace-only input. -/
theorem C9_buildSuggestions :
    (∀ text : Str, (buildSuggestions text).length ≤ 10) ∧
    (∀ text : Str, text.all isJsSpace = true → buildSuggestions text = []) := by
  have hlen : ∀ (l : List Suggestion), (jsSlice l 0 10).length ≤ 10 := by
    intro l
    simp only [jsSlice, jsSliceNorm]
    simp [List.length_drop, List.length_take]
  constructor
  · intro text
    simp only [buildSuggestions]
    split
    · simp
    · exact hlen _
  · intro text h
    have htrim : jsTrim text = [] := by
      rw [jsTrim, dropWhile_eq_nil_of_all text h]
      rfl
    simp [buildSuggestions, htrim]

theorem C9_buildSuggestions_witness :
    buildSuggestions (S "  ") = [] :=
  C9_buildSuggestions.2 (S "  ") (by decide)

theorem startsWithStr_iff : ∀ (p l : Str),
    startsWithStr p l = true ↔ ∃ t, l = p ++ t := by
  intro p
  induction p with
  | nil =>
    intro l
    simp [startsWithStr]
  | cons a as ih =>
    intro l
    cases l with
    | nil =>
      simp [startsWithStr]
    | cons b bs =>
      simp only [startsWithStr, Bool.and_eq_true, beq_iff_eq, List.cons_append]
      constructor
      · rintro ⟨rfl, h⟩
        obtain ⟨t, rfl⟩ := (ih bs).mp h
        exact ⟨t, rfl⟩
      · rintro ⟨t, ht⟩
        injection ht with h1 h2
        exact ⟨h1.symm, (ih bs).mpr ⟨t, h2⟩⟩

theorem endsWithStr_iff (l suf : Str) :
    endsWithStr l suf = true ↔ ∃ q, l = q ++ suf := by
  rw [endsWithStr, startsWithStr_iff]
  constructor
  · rintro ⟨t, ht⟩
    refine ⟨t.reverse, ?_⟩
    have h := congrArg List.reverse ht
    simpa [List.reverse_append] using h
  · rintro ⟨q, rfl⟩
    exact ⟨q.reverse, by simp [List.reverse_append]⟩

theorem dropTrailing_prefix (p : Char → Bool) (l : Str) :
    ∃ r, l = dropTrailing p l ++ r := by
  refine ⟨(l.reverse.takeWhile p).reverse, ?_⟩
  rw [dropTrailing]
  conv_lhs => rw [← List.reverse_reverse l,
    ← List.takeWhile_append_dropWhile p l.reverse]
  rw [List.reverse_append]

theorem dropTrailing_append_last (p : Char → Bool) (q : Str) (c : Char)
    (hc : p c = false) : dropTrailing p (q ++ [c]) = q ++ [c] := by
  rw [dropTrailing, List.reverse_append]
  simp [List.dropWhile_cons, hc]

theorem dropWhile_head_false (p : Char → Bool) :
    ∀ (l : Str) (c : Char) (r : Str), l.dropWhile p = c :: r → p c = false := by
  intro l
  induction l with
  | nil =>
    intro c r h
    simp at h
  | cons a as ih =>
    intro c r h
    by_cases ha : p a = true
    · rw [List.dropWhile_cons, if_pos ha] at h
      exact ih c r h
    · rw [List.dropWhile_cons, if_neg ha] at h
      injection h with h1 _
      subst h1
      exact Bool.not_eq_true _ ▸ ha

theorem normalize_fixture (res : Str)
    (hshape : ∃ q, res = q ++ S "/v2")
    (hhead : ∀ c t, res = c :: t → isJsSpace c = false) :
    endsWithStr res (S "/v2") = true ∧ stripTrailingSlashes res = res ∧
    normalizeBaseUrl res = some res := by
  obtain ⟨q, rfl⟩ := hshape
  have hS : S "/v2" = ['/', 'v', '2'] := rfl
  have hassoc : q ++ S "/v2" = (q ++ ['/', 'v']) ++ ['2'] := by
    rw [hS]
    simp
  have hends : endsWithStr (q ++ S "/v2") (S "/v2") = true :=
    (endsWithStr_iff _ _).mpr ⟨q, rfl⟩
  have hstrip : stripTrailingSlashes (q ++ S "/v2") = q ++ S "/v2" := by
    rw [stripTrailingSlashes, hassoc, dropTrailing_append_last _ _ _ (by decide)]
  have hne : q ++ S "/v2" ≠ [] := by
    rw [hS]
    simp
  have hdw : List.dropWhile isJsSpace (q ++ S "/v2") = q ++ S "/v2" := by
    cases hq : q ++ S "/v2" with
    | nil => exact absurd hq hne
    | cons c t =>
      rw [List.dropWhile_cons, hhead c t hq]
      simp
  have htrim : jsTrim (q ++ S "/v2") = q ++ S "/v2" := by
    rw [jsTrim, hdw, hassoc, dropTrailing_append_last _ _ _ (by decide)]
  refine ⟨hends, hstrip, ?_⟩
  simp only [normalizeBaseUrl]
  have hor : jsOrStr (q ++ S "/v2") [] = q ++ S "/v2" := by
    rw [jsOrStr, if_neg hne]
  rw [hor, htrim, hstrip, if_neg hne, if_pos hends]

/-- C10: the claimed failure condition is wrong: `normalizeBaseUrl` throws
on the input `"/"` even though `"/"` does not trim to the empty string —
stripping the trailing slashes empties it. -/
theorem C10_counterexample :
    normalizeBaseUrl (S "/") = none ∧ jsTrim (S "/") ≠ [] := by
  decide

/-- C10 (amended): `normalizeBaseUrl` throws exactly when the input, after
trimming and stripping trailing slashes, is empty (so also on slash-only
inputs, not only on whitespace-only ones); on every input where it
succeeds, the result ends with `"/v2"`, has no trailing slash (stripping
trailing slashes is the identity on it), and the function is idempotent. -/
theorem C10_normalize_amended : ∀ raw : Str,
    (normalizeBaseUrl raw = none ↔ stripTrailingSlashes (jsTrim raw) = []) ∧
    (∀ res : Str, normalizeBaseUrl raw = some res →
      endsWithStr res (S "/v2") = true ∧
      stripTrailingSlashes res = res ∧
      normalizeBaseUrl res = some res) := by
  intro raw
  have hor : jsOrStr raw [] = raw := by
    rw [jsOrStr]
    split
    · next h => rw [h]
    · rfl
  constructor
  · by_cases hb : stripTrailingSlashes (jsTrim raw) = [] <;>
      simp [normalizeBaseUrl, hor, hb]
  · intro res hout
    simp only [normalizeBaseUrl] at hout
    rw [hor] at hout
    by_cases hb : stripTrailingSlashes (jsTrim raw) = []
    · rw [if_pos hb] at hout
      exact absurd hout (by simp)
    · rw [if_neg hb] at hout
      have hout' := Option.some.inj hout
      have hjt : jsTrim raw = dropTrailing isJsSpace (raw.dropWhile isJsSpace) := rfl
      obtain ⟨r1, hr1⟩ := dropTrailing_prefix (fun c => c == '/') (jsTrim raw)
      obtain ⟨r2, hr2⟩ := dropTrailing_prefix isJsSpace (raw.dropWhile isJsSpace)
      have hheadbase : ∀ c t, stripTrailingSlashes (jsTrim raw) = c :: t →
          isJsSpace c = false := by
        intro c t hct
        apply dropWhile_head_false isJsSpace raw c ((t ++ r1) ++ r2)
        rw [hr2, ← hjt, hr1]
        rw [stripTrailingSlashes] at hct
        rw [hct]
        simp
      by_cases hends : endsWithStr (stripTrailingSlashes (jsTrim raw)) (S "/v2") = true
      · rw [if_pos hends] at hout'
        subst hout'
        exact normalize_fixture _ ((endsWithStr_iff _ _).mp hends) hheadbase
      · rw [if_neg hends] at hout'
        subst hout'
        refine normalize_fixture _ ⟨stripTrailingSlashes (jsTrim raw), rfl⟩ ?_
        intro c t hct
        cases hbase : stripTrailingSlashes (jsTrim raw) with
        | nil => exact absurd hbase hb
        | cons b0 bs =>
          rw [hbase, List.cons_append] at hct
          injection hct with h1 _
          subst h1
          exact hheadbase _ _ hbase

theorem C10_normalize_amended_witness :
    endsWithStr (S "https://lt.example.org/v2") (S "/v2") = true ∧
    stripTrailingSlashes (S "https://lt.example.org/v2") =
      S "https://lt.example.org/v2" ∧
    normalizeBaseUrl (S "https://lt.example.org/v2") =
      some (S "https://lt.example.org/v2") :=
  (C10_normalize_amended (S "https://lt.example.org/")).2
    (S "https://lt.example.org/v2") (by decide)
